import Mathlib

/-!
Verification of the unit-algebra and formatting core of the `quantity` crate
(repository `itt-ustutt/quantity`), against a shallow embedding of its source.

Modelling conventions, stated once here:

* A dimension vector (`SIUnit` in `src/src/si.rs`) is `[i8; 7]`.  The crate
  documents the exponents as small bounded integers (observed range roughly
  -20..20) and treats exponent overflow as a caller error, so the seven
  components are embedded as mathematical integers and the wrap-around of
  `i8` addition/multiplication on components is idealised away.  Explicit,
  always-defined conversions in the source are kept: `powi` and `root`
  receive an `i32` and truncate it with `let i8 = i as i8;`, which is
  embedded as `wrap8` (two's-complement truncation to 8 bits).
* Rust `%` on signed integers is truncated remainder (`Int.tmod`), Rust `/`
  is truncated division (`Int.tdiv`), and `div_euclid` is `Int.ediv`.
* A Rust panic (`panic!`, `unwrap` on an error, division by zero) is
  embedded as the `none` case of an `Option`, or as an explicit error value
  of an `Except` for the `panic!` calls that report incompatible units.
* `f64` values are embedded as exact decimal numbers `m * 10 ^ e` (the
  structure `Dec` below); IEEE-754 rounding is idealised away, and Rust's
  shortest-round-trip float `Display` is modelled as printing the exact
  decimal representation without trailing zeros.  All numbers appearing in
  the formatting claims are exactly representable decimals.
* Generic numeric payloads (`F` in `Quantity<F, U>`) stay generic: the
  embedding is parametric in the value type wherever the source is.
-/

/-- Two's-complement truncation of an integer to 8 bits: the Rust cast
`i as i8` for `i : i32`. -/
def wrap8 (i : ℤ) : ℤ :=
  (i + 128) % 256 - 128

/-- Dimension vector: `SIUnit(pub [i8; 7])` from `src/src/si.rs`, with the
seven exponent components embedded as integers. -/
structure SIUnit where
  a0 : ℤ
  a1 : ℤ
  a2 : ℤ
  a3 : ℤ
  a4 : ℤ
  a5 : ℤ
  a6 : ℤ
deriving DecidableEq, Repr

/-- Component access by index 0..6, the counterpart of `self.0[k]`. -/
def SIUnit.u (s : SIUnit) : Fin 7 → ℤ :=
  ![s.a0, s.a1, s.a2, s.a3, s.a4, s.a5, s.a6]

/-- `SIUnit::DIMENSIONLESS = SIUnit([0; 7])`. -/
def SIUnit.dimensionless : SIUnit :=
  ⟨0, 0, 0, 0, 0, 0, 0⟩

/-- `Unit::is_dimensionless`: equality with the all-zero vector. -/
def SIUnit.isDimensionless (s : SIUnit) : Bool :=
  s = SIUnit.dimensionless

/-- `impl Mul for SIUnit`: componentwise sum of the seven exponents. -/
def SIUnit.mul (a b : SIUnit) : SIUnit :=
  ⟨a.a0 + b.a0, a.a1 + b.a1, a.a2 + b.a2, a.a3 + b.a3,
   a.a4 + b.a4, a.a5 + b.a5, a.a6 + b.a6⟩

/-- `impl Div for SIUnit`: componentwise difference of the seven exponents. -/
def SIUnit.div (a b : SIUnit) : SIUnit :=
  ⟨a.a0 - b.a0, a.a1 - b.a1, a.a2 - b.a2, a.a3 - b.a3,
   a.a4 - b.a4, a.a5 - b.a5, a.a6 - b.a6⟩

/-- `SIUnit::powi(&self, i: i32)`: after `let i8 = i as i8;` every component
is multiplied by the truncated exponent. -/
def SIUnit.powi (a : SIUnit) (i : ℤ) : SIUnit :=
  let n := wrap8 i
  ⟨a.a0 * n, a.a1 * n, a.a2 * n, a.a3 * n, a.a4 * n, a.a5 * n, a.a6 * n⟩

/-- The error type `QuantityError` of `src/src/lib.rs`, restricted to the
data the verified claims inspect: `UnitError` carries the two dimension
vectors that the message renders as expected and found units, and
`SINumberError` with op "root" is the invalid-root failure. -/
inductive QErr where
  /-- `QuantityError::UnitError { expected, found }` (units kept as vectors). -/
  | unitError (expected found : SIUnit) : QErr
  /-- `QuantityError::SINumberError { op: "root", cause: "Unit exponents are
  not multiples of index" }`. -/
  | invalidRoot : QErr
deriving DecidableEq, Repr

instance {ε α : Type} [DecidableEq ε] [DecidableEq α] : DecidableEq (Except ε α) := fun x y =>
  match x, y with
  | .ok a, .ok b =>
    if h : a = b then .isTrue (by rw [h]) else .isFalse (by intro hc; cases hc; exact h rfl)
  | .ok _, .error _ => .isFalse (by intro hc; cases hc)
  | .error _, .ok _ => .isFalse (by intro hc; cases hc)
  | .error e, .error f =>
    if h : e = f then .isTrue (by rw [h]) else .isFalse (by intro hc; cases hc; exact h rfl)

/-- `SIUnit::root(&self, i: i32)`.  After `let i8 = i as i8;` the source
tests `self.0.iter().all(|u| u.rem(i8) == 0)`; when the truncated index is
zero this `rem` panics with a division by zero (embedded as `none`).
Otherwise the components are divided exactly, or the invalid-root error is
returned. -/
def SIUnit.root (a : SIUnit) (i : ℤ) : Option (Except QErr SIUnit) :=
  let n := wrap8 i
  if n = 0 then
    none
  else if a.a0.tmod n = 0 ∧ a.a1.tmod n = 0 ∧ a.a2.tmod n = 0 ∧
          a.a3.tmod n = 0 ∧ a.a4.tmod n = 0 ∧ a.a5.tmod n = 0 ∧
          a.a6.tmod n = 0 then
    some (.ok ⟨a.a0.tdiv n, a.a1.tdiv n, a.a2.tdiv n, a.a3.tdiv n,
               a.a4.tdiv n, a.a5.tdiv n, a.a6.tdiv n⟩)
  else
    some (.error .invalidRoot)

/-- `SIUnit::sqrt` delegates to `root(2)`. -/
def SIUnit.sqrtU (a : SIUnit) : Option (Except QErr SIUnit) :=
  a.root 2

/-- `SIUnit::cbrt` delegates to `root(3)`. -/
def SIUnit.cbrtU (a : SIUnit) : Option (Except QErr SIUnit) :=
  a.root 3

/-! The base-unit dimension vectors `_METER .. _CANDELA` and the derived
vectors of `src/src/si.rs` (lines 208-235), in source order. -/

def uMETER : SIUnit := ⟨1, 0, 0, 0, 0, 0, 0⟩
def uKILOGRAM : SIUnit := ⟨0, 1, 0, 0, 0, 0, 0⟩
def uSECOND : SIUnit := ⟨0, 0, 1, 0, 0, 0, 0⟩
def uAMPERE : SIUnit := ⟨0, 0, 0, 1, 0, 0, 0⟩
def uMOL : SIUnit := ⟨0, 0, 0, 0, 1, 0, 0⟩
def uKELVIN : SIUnit := ⟨0, 0, 0, 0, 0, 1, 0⟩
def uCANDELA : SIUnit := ⟨0, 0, 0, 0, 0, 0, 1⟩
def uHERTZ : SIUnit := ⟨0, 0, -1, 0, 0, 0, 0⟩
def uNEWTON : SIUnit := ⟨1, 1, -2, 0, 0, 0, 0⟩
def uJOULE : SIUnit := ⟨2, 1, -2, 0, 0, 0, 0⟩
def uPASCAL : SIUnit := ⟨-1, 1, -2, 0, 0, 0, 0⟩
def uWATT : SIUnit := ⟨2, 1, -3, 0, 0, 0, 0⟩
def uAMPERE_SECOND : SIUnit := ⟨0, 0, 1, 1, 0, 0, 0⟩
def uVOLT : SIUnit := ⟨2, 1, -3, -1, 0, 0, 0⟩
def uFARAD : SIUnit := ⟨-2, -1, 4, 2, 0, 0, 0⟩
def uOHM : SIUnit := ⟨2, 1, -3, -2, 0, 0, 0⟩
def uSIEMENS : SIUnit := ⟨-2, -1, 3, 2, 0, 0, 0⟩
def uWEBER : SIUnit := ⟨2, 1, -2, -1, 0, 0, 0⟩
def uTESLA : SIUnit := ⟨0, 1, -2, -1, 0, 0, 0⟩
def uHENRY : SIUnit := ⟨2, 1, -2, -2, 0, 0, 0⟩

/-- Quantity: `struct Quantity<F, U> { value: F, unit: U }` with `U = SIUnit`
as in the `si` module; the value payload stays generic. -/
structure Quantity (α : Type) where
  value : α
  unit : SIUnit
deriving DecidableEq, Repr

/-- `impl Add for Quantity` (macro `impl_add_op!` in `src/src/lib.rs`): on
equal units the values are added and the unit kept, otherwise the source
panics with the message naming both units, embedded as a `unitError`
carrying the left (expected) and right (found) dimension vectors. -/
def qAdd {α : Type} [Add α] (x y : Quantity α) : Except QErr (Quantity α) :=
  if x.unit = y.unit then
    .ok ⟨x.value + y.value, x.unit⟩
  else
    .error (.unitError x.unit y.unit)

/-- `impl Sub for Quantity` from the same macro. -/
def qSub {α : Type} [Sub α] (x y : Quantity α) : Except QErr (Quantity α) :=
  if x.unit = y.unit then
    .ok ⟨x.value - y.value, x.unit⟩
  else
    .error (.unitError x.unit y.unit)

/-- `impl Mul<Quantity> for Quantity` (macro `impl_mul_op!`): values multiply
and the units multiply (componentwise exponent sums). -/
def qMul {α : Type} [Mul α] (x y : Quantity α) : Quantity α :=
  ⟨x.value * y.value, x.unit.mul y.unit⟩

/-- `impl Div<Quantity> for Quantity`: values divide and the units divide
(componentwise exponent differences). -/
def qDiv {α : Type} [Div α] (x y : Quantity α) : Quantity α :=
  ⟨x.value / y.value, x.unit.div y.unit⟩

/-- `Quantity::has_unit`. -/
def qHasUnit {α β : Type} (x : Quantity α) (y : Quantity β) : Bool :=
  x.unit = y.unit

/-- `Quantity::into_value`: the raw value if the quantity is dimensionless. -/
def qIntoValue {α : Type} (x : Quantity α) : Except QErr α :=
  if x.unit.isDimensionless then
    .ok x.value
  else
    .error (.unitError SIUnit.dimensionless x.unit)

/-- `Quantity::to_reduced(reference)`: `(self / reference).into_value()`. -/
def qToReduced {α : Type} [Div α] (x ref : Quantity α) : Except QErr α :=
  qIntoValue (qDiv x ref)

/-- `QuantityScalar::powi`: value power and unit power. -/
def qPowi {α : Type} (pw : α → ℤ → α) (x : Quantity α) (i : ℤ) : Quantity α :=
  ⟨pw x.value i, x.unit.powi i⟩

/-! The exact-decimal model of `f64`: a value `m * 10 ^ e`.  All `f64`
arithmetic of the embedded code is exact on the decimals it is applied to
(see the conventions at the top of the file). -/

/-- Exact decimal number `m * 10 ^ e`, the model of an `f64` value. -/
structure Dec where
  m : ℤ
  e : ℤ
deriving DecidableEq, Repr

/-- Rescale the two mantissas to the common (minimal) exponent; used by
comparison and addition. -/
def Dec.al (a b : Dec) : ℤ × ℤ :=
  (a.m * 10 ^ (a.e - min a.e b.e).toNat, b.m * 10 ^ (b.e - min a.e b.e).toNat)

/-- Value-level strict order on decimals (the model of `f64` `<`). -/
def Dec.blt (a b : Dec) : Bool :=
  (Dec.al a b).1 < (Dec.al a b).2

/-- Value-level order on decimals (the model of `f64` `<=`). -/
def Dec.ble (a b : Dec) : Bool :=
  (Dec.al a b).1 ≤ (Dec.al a b).2

def Dec.addD (a b : Dec) : Dec :=
  ⟨(Dec.al a b).1 + (Dec.al a b).2, min a.e b.e⟩

def Dec.subD (a b : Dec) : Dec :=
  ⟨(Dec.al a b).1 - (Dec.al a b).2, min a.e b.e⟩

def Dec.mulD (a b : Dec) : Dec :=
  ⟨a.m * b.m, a.e + b.e⟩

/-- Division, with the dividend pre-scaled by 30 decimal digits.  In this
development every divisor has mantissa `1` (unit reference quantities and
powers of ten), so the division is exact. -/
def Dec.divD (a b : Dec) : Dec :=
  ⟨(a.m * 10 ^ 30).tdiv b.m, a.e - b.e - 30⟩

def Dec.absD (a : Dec) : Dec :=
  ⟨|a.m|, a.e⟩

/-- The model of `f64::powi`. -/
def Dec.powiD (a : Dec) (n : ℤ) : Dec :=
  if 0 ≤ n then ⟨a.m ^ n.toNat, a.e * n⟩
  else Dec.divD ⟨1, 0⟩ ⟨a.m ^ (-n).toNat, a.e * (-n)⟩

/-- Division by `10.0f64.powi(k)`, exact in the decimal model. -/
def Dec.divPow10 (a : Dec) (k : ℤ) : Dec :=
  ⟨a.m, a.e - k⟩

instance : Add Dec := ⟨Dec.addD⟩
instance : Sub Dec := ⟨Dec.subD⟩
instance : Mul Dec := ⟨Dec.mulD⟩
instance : Div Dec := ⟨Dec.divD⟩

/-! Decimal digit strings, the model of Rust's float `Display` (shortest
exact decimal) and `LowerExp` formatting. -/

/-- The ASCII digit for `n % 10`. -/
def digitChar (n : ℕ) : Char :=
  Char.ofNat (48 + n % 10)

/-- Decimal digits of `n`, least significant first; structural fuel
recursion (fuel 200 covers every mantissa produced in this development). -/
def natDigitsRev : ℕ → ℕ → List Char
  | 0, _ => []
  | fuel + 1, n => if n = 0 then [] else digitChar (n % 10) :: natDigitsRev fuel (n / 10)

/-- Decimal digits of `n`, most significant first (empty for `0`). -/
def natDigits (n : ℕ) : List Char :=
  (natDigitsRev 200 n).reverse

def natStr (n : ℕ) : String :=
  if n = 0 then "0" else String.mk (natDigits n)

def intStr (i : ℤ) : String :=
  if i < 0 then "-" ++ natStr i.natAbs else natStr i.natAbs

/-- Drop trailing `'0'` characters (of a fraction part). -/
def trimZeros (l : List Char) : List Char :=
  (l.reverse.dropWhile (· = '0')).reverse

/-- `floor(log10(|value|))` of a nonzero decimal, computed exactly from the
mantissa digit count: the model of `abs_value.log10().floor()`. -/
def Dec.log10Floor (a : Dec) : ℤ :=
  ((natDigits a.m.natAbs).length : ℤ) - 1 + a.e

/-- Rust `Display` of an `f64` in the exact-decimal model: the decimal
expansion without trailing fraction zeros, `"0"` for zero. -/
def fmtDec (a : Dec) : String :=
  if a.m = 0 then "0"
  else
    let sign := if a.m < 0 then "-" else ""
    let s := natDigits a.m.natAbs
    if 0 ≤ a.e then
      sign ++ String.mk (s ++ List.replicate a.e.toNat '0')
    else
      let k := (-a.e).toNat
      let ip := if s.length ≤ k then ['0'] else s.take (s.length - k)
      let fp := trimZeros
        (if s.length ≤ k then List.replicate (k - s.length) '0' ++ s else s.drop (s.length - k))
      if fp.isEmpty then sign ++ String.mk ip
      else sign ++ String.mk ip ++ "." ++ String.mk fp

/-- Rust `LowerExp` (`{:e}`) of an `f64` in the exact-decimal model:
mantissa in `[1, 10)` without trailing zeros, then `e` and the exponent. -/
def fmtDecExp (a : Dec) : String :=
  if a.m = 0 then "0e0"
  else
    let sign := if a.m < 0 then "-" else ""
    let s := natDigits a.m.natAbs
    let ex : ℤ := (s.length : ℤ) - 1 + a.e
    let mant := trimZeros s
    (if (mant.drop 1).isEmpty then sign ++ String.mk (mant.take 1)
     else sign ++ String.mk (mant.take 1) ++ "." ++ String.mk (mant.drop 1))
      ++ "e" ++ intStr ex

/-! Scalar and array operator implementations generated by `impl_mul_op!`
in `src/src/lib.rs` (the `$exp` literal is `1` for `Mul`, `-1` for `Div`). -/

/-- `impl Mul<Quantity<F, U>> for f64`: `unit: other.unit.powi(1)`. -/
def scalarMul (s : Dec) (q : Quantity Dec) : Quantity Dec :=
  ⟨s.mulD q.value, q.unit.powi 1⟩

/-- `impl Div<Quantity<F, U>> for f64`: `unit: other.unit.powi(-1)`. -/
def scalarDiv (s : Dec) (q : Quantity Dec) : Quantity Dec :=
  ⟨s.divD q.value, q.unit.powi (-1)⟩

/-- `impl Mul<Quantity<F, U>> for ArrayBase<S, D>` (owned array on the
left): elementwise value product, `unit: other.unit.powi(1)`. -/
def arrMulQ {n : ℕ} {α : Type} [Mul α] (a : Fin n → α) (q : Quantity α) :
    Quantity (Fin n → α) :=
  ⟨fun i => a i * q.value, q.unit.powi 1⟩

/-- `impl Div<Quantity<F, U>> for ArrayBase<S, D>` (owned array on the
left): elementwise value quotient, `unit: other.unit.powi(-1)`. -/
def arrDivQ {n : ℕ} {α : Type} [Div α] (a : Fin n → α) (q : Quantity α) :
    Quantity (Fin n → α) :=
  ⟨fun i => a i / q.value, q.unit.powi (-1)⟩

/-- `impl Mul<Quantity<F, U>> for &ArrayBase<S, D>` (borrowed array on the
left, `src/src/lib.rs` lines 401-413): elementwise value product, but
`unit: other.unit` with no `powi`. -/
def arrMulQRef {n : ℕ} {α : Type} [Mul α] (a : Fin n → α) (q : Quantity α) :
    Quantity (Fin n → α) :=
  ⟨fun i => a i * q.value, q.unit⟩

/-- `impl Div<Quantity<F, U>> for &ArrayBase<S, D>` (borrowed array on the
left, same macro arm): elementwise value quotient, but `unit: other.unit`
with no `powi`. -/
def arrDivQRef {n : ℕ} {α : Type} [Div α] (a : Fin n → α) (q : Quantity α) :
    Quantity (Fin n → α) :=
  ⟨fun i => a i / q.value, q.unit⟩

/-- `Quantity::try_set` on an array-valued quantity (`src/src/lib.rs` lines
855-873): when the scalar has the array's unit the indexed element is
overwritten and `Ok(())` is returned; otherwise a `UnitError` with
`expected = self.unit` and `found = scalar.unit` is returned and the array
is untouched.  The function returns the post-state next to the result. -/
def qTrySet {n : ℕ} {α : Type} (a : Quantity (Fin n → α)) (i : Fin n)
    (s : Quantity α) : Quantity (Fin n → α) × Except QErr Unit :=
  if qHasUnit a s then
    (⟨Function.update a.value i s.value, a.unit⟩, .ok ())
  else
    (a, .error (.unitError a.unit s.unit))

/-! The unit constants of `src/src/si.rs` used by the claims, as quantities
over the exact-decimal value model. -/

def METER : Quantity Dec := ⟨⟨1, 0⟩, uMETER⟩
def KILOGRAM : Quantity Dec := ⟨⟨1, 0⟩, uKILOGRAM⟩
def SECOND : Quantity Dec := ⟨⟨1, 0⟩, uSECOND⟩
def AMPERE : Quantity Dec := ⟨⟨1, 0⟩, uAMPERE⟩
def MOL : Quantity Dec := ⟨⟨1, 0⟩, uMOL⟩
def KELVIN : Quantity Dec := ⟨⟨1, 0⟩, uKELVIN⟩
def CANDELA : Quantity Dec := ⟨⟨1, 0⟩, uCANDELA⟩
def GRAM : Quantity Dec := ⟨⟨1, -3⟩, uKILOGRAM⟩
def HERTZ : Quantity Dec := ⟨⟨1, 0⟩, uHERTZ⟩
def NEWTON : Quantity Dec := ⟨⟨1, 0⟩, uNEWTON⟩
def JOULE : Quantity Dec := ⟨⟨1, 0⟩, uJOULE⟩
def PASCAL : Quantity Dec := ⟨⟨1, 0⟩, uPASCAL⟩
def WATT : Quantity Dec := ⟨⟨1, 0⟩, uWATT⟩
def BAR : Quantity Dec := ⟨⟨1, 5⟩, uPASCAL⟩
def COULOMB : Quantity Dec := ⟨⟨1, 0⟩, uAMPERE_SECOND⟩
def VOLT : Quantity Dec := ⟨⟨1, 0⟩, uVOLT⟩
def FARAD : Quantity Dec := ⟨⟨1, 0⟩, uFARAD⟩
def OHM : Quantity Dec := ⟨⟨1, 0⟩, uOHM⟩
def SIEMENS : Quantity Dec := ⟨⟨1, 0⟩, uSIEMENS⟩
def WEBER : Quantity Dec := ⟨⟨1, 0⟩, uWEBER⟩
def TESLA : Quantity Dec := ⟨⟨1, 0⟩, uTESLA⟩
def HENRY : Quantity Dec := ⟨⟨1, 0⟩, uHENRY⟩

/-- `QuantityScalar::powi` at the `Dec` value model. -/
def qPowiD (x : Quantity Dec) (i : ℤ) : Quantity Dec :=
  ⟨x.value.powiD i, x.unit.powi i⟩

/-! The `si-units` python crate (`src/si-units/src`): its `SIUnit` has the
same seven-exponent representation and operations as the one above, so it
is shared; its error type and the Debye power method are embedded here. -/

/-- `QuantityError` of `src/si-units/src/lib.rs`. -/
inductive SIUnitsErr where
  | inconsistentUnits (unit1 unit2 : SIUnit) : SIUnitsErr
  | invalidRoot : SIUnitsErr
  | debyePower : SIUnitsErr
deriving DecidableEq, Repr

/-- `Debye::__pow__` (`src/si-units/src/extra_units.rs` lines 51-59): for
`n % 2 == 1` (Rust truncated remainder) the `DebyePower` error is raised;
otherwise the value `(self.0.powi(2) * 1e-19 * 1e-30).powi(n / 2)` (here
over `ℚ`, `n / 2` truncated) is paired with `(_JOULE * _METER.powi(3))
.powi(n / 2)`. -/
def debyePow (d : ℚ) (n : ℤ) : Except SIUnitsErr (ℚ × SIUnit) :=
  if n.tmod 2 = 1 then
    .error .debyePower
  else
    .ok ((d ^ 2 * (10 : ℚ) ^ (-19 : ℤ) * (10 : ℚ) ^ (-30 : ℤ)) ^ (n.tdiv 2),
         (uJOULE.mul (uMETER.powi 3)).powi (n.tdiv 2))

/-! The formatting engine of `src/src/si_fmt.rs`: raw unit symbols, the
metric prefix table, the derived-unit registry and its construction from
the fixed unit-expression strings, the prefix selector, and the `Display`
and `LowerExp` implementations for scalar SI quantities. -/

/-- `UNIT_SYMBOLS: [&str; 7]`. -/
def UNIT_SYMBOLS : List String :=
  ["m", "kg", "s", "A", "mol", "K", "cd"]

/-- `PREFIX_SYMBOLS`: the insertions into the prefix map, keyed by the
multiple-of-three decimal exponent.  Note the entry for exponent 0 is a
single space, not the empty string. -/
def PFX_SYMBOLS : List (ℤ × String) :=
  [(0, " "), (-24, "y"), (-21, "z"), (-18, "a"), (-15, "f"), (-12, "p"),
   (-9, "n"), (-6, "µ"), (-3, "m"), (3, "k"), (6, "M"), (9, "G"), (12, "T"),
   (15, "P"), (18, "E"), (21, "Z"), (24, "Y")]

/-- `PREFIX_SYMBOLS.get(&e).unwrap()`; the default is never reached because
the selector only produces exponents present in the table. -/
def pfxSymbolAt (e : ℤ) : String :=
  ((PFX_SYMBOLS.find? (fun p => p.1 = e)).map Prod.snd).getD ""

def dPICO : Dec := ⟨1, -12⟩
def dKILO : Dec := ⟨1, 3⟩
def dMEGA : Dec := ⟨1, 6⟩
def dPETA : Dec := ⟨1, 15⟩

/-- `DERIVED_UNIT_SYMBOLS`: atomic symbol to (reference quantity,
prefix-eligibility bound), in source insertion order. -/
def DERIVED_UNIT_SYMBOLS : List (String × (Quantity Dec × Option Dec)) :=
  [("m", (METER, some dMEGA)),
   ("g", (GRAM, some dMEGA)),
   ("s", (SECOND, some dKILO)),
   ("mol", (MOL, some dMEGA)),
   ("K", (KELVIN, none)),
   ("Hz", (HERTZ, some dPETA)),
   ("N", (NEWTON, some dPETA)),
   ("Pa", (PASCAL, some dPETA)),
   ("J", (JOULE, some dPETA)),
   ("W", (WATT, some dPETA)),
   ("m³", (qPowiD METER 3, none)),
   ("m²", (qPowiD METER 2, none)),
   ("kg", (KILOGRAM, none)),
   ("C", (COULOMB, none)),
   ("V", (VOLT, some dPETA)),
   ("F", (FARAD, some dPETA)),
   ("Ω", (OHM, some dPETA)),
   ("S", (SIEMENS, some dPETA)),
   ("Wb", (WEBER, some dPETA)),
   ("T", (TESLA, some dPETA)),
   ("H", (HENRY, some dPETA)),
   ("lm", (CANDELA, none)),
   ("s²", (qPowiD SECOND 2, none))]

/-- Split a unit-expression string into (operator, atomic-symbol) pairs;
the first pair carries the implicit leading `*` (the source splits the
string `"*" ++ s` along the operator and atomic-symbol alphabets with two
regexes and zips the pieces). -/
def tokHelp (op : Char) (acc : List Char) : List Char → List (Char × String)
  | [] => [(op, String.mk acc.reverse)]
  | c :: rest =>
    if c = '*' ∨ c = '/' then (op, String.mk acc.reverse) :: tokHelp c [] rest
    else tokHelp op (c :: acc) rest

def tokenizeUnits (s : String) : List (Char × String) :=
  tokHelp '*' [] s.data

/-- A derived-unit registry entry: the tuple
`(SINumber, String, Option<f64>, Vec<&str>, Vec<i8>)` of the source. -/
structure DUEntry where
  ref : Quantity Dec
  symbol : String
  hasPfx : Option Dec
  symbols : List String
  exps : List ℤ
deriving DecidableEq, Repr

/-- One step of the token loop of `insert_derived_unit`. -/
def duStep (st : Option (Quantity Dec) × Option Dec × List String × List ℤ)
    (t : Char × String) : Option (Quantity Dec) × Option Dec × List String × List ℤ :=
  let (unit, hasPfx, symbols, exps) := st
  -- `DERIVED_UNIT_SYMBOLS.get(u).unwrap()`: the default is never reached
  -- for the fixed expression table.
  let sihp := ((DERIVED_UNIT_SYMBOLS.find? (fun p => p.1 = t.2)).map Prod.snd).getD
    (⟨⟨1, 0⟩, SIUnit.dimensionless⟩, none)
  let hasPfx := if unit.isNone then sihp.2 else hasPfx
  let unit :=
    if t.1 = '*' then some (match unit with | none => sihp.1 | some u => qMul u sihp.1)
    else if t.1 = '/' then some (match unit with | none => sihp.1 | some u => qDiv u sihp.1)
    else unit
  let symbols := symbols ++ [if t.2 = "m³" ∨ t.2 = "m²" then "m" else t.2]
  let exps := exps ++
    [(if t.2 = "m³" then 3 else if t.2 = "m²" then 2 else 1) *
     (if t.1 = '*' then 1 else if t.1 = '/' then -1 else 0)]
  (unit, hasPfx, symbols, exps)

/-- `insert_derived_unit`: parse an expression string, fold its factors,
and insert the resulting entry under the net dimension vector (a fresh
insertion shadows an older entry with the same key, as a hash-map insert
does). -/
def insertDerivedUnit (map : List (SIUnit × DUEntry)) (s : String) :
    List (SIUnit × DUEntry) :=
  let st := (tokenizeUnits s).foldl duStep (none, none, [], [])
  match st.1 with
  | some unit =>
    (unit.unit,
     ⟨unit, String.mk (s.data.filter (· ≠ '*')), st.2.1, st.2.2.1, st.2.2.2⟩) :: map
  | none => map

/-- `DERIVED_UNITS`: the registry built from the fixed expression strings,
in source insertion order. -/
def DERIVED_UNITS : List (SIUnit × DUEntry) :=
  ["m", "g", "s", "mol", "K", "Hz", "N", "Pa", "J", "W", "C", "V", "F", "Ω",
   "S", "Wb", "T", "H", "mol/m³", "mol/m²", "mol/m", "m³/mol", "m³/mol/K",
   "g/m³", "N/m", "J*s", "J/mol", "J/K", "J/mol/K", "J/kg", "J/kg/K", "Pa*s",
   "m/s", "m²/s", "W/m/K", "g/mol", "m²", "m³", "lm/W",
   "m³/kg/s²"].foldl insertDerivedUnit []

/-- `DERIVED_UNITS.get(&unit)`. -/
def lookupDU (u : SIUnit) : Option DUEntry :=
  ((DERIVED_UNITS.find? (fun p => p.1 = u)).map Prod.snd)

/-- `get_prefix(value, has_prefix)` (`src/src/si_fmt.rs` lines 49-61).  The
`as i8` cast of the floored logarithm is dropped: an `f64` exponent always
fits in `i8`.  The prefix divisor `10.0f64.powi(e)` is exact in the decimal
model (`divPow10`). -/
def getPfx (value : Dec) (hasPfx : Option Dec) : Dec × String :=
  match hasPfx with
  | some p =>
    let absValue := value.absD
    let e : ℤ :=
      if Dec.blt dPICO absValue ∧ Dec.blt absValue p then
        absValue.log10Floor.ediv 3 * 3
      else 0
    (value.divPow10 e, pfxSymbolAt e)
  | none => (value, "")

/-- `impl fmt::Display for SIUnit`: the registry symbol when the vector has
an entry, otherwise the space-joined raw `symbol^exponent` components. -/
def fmtUnit (u : SIUnit) : String :=
  match lookupDU u with
  | some en => en.symbol
  | none =>
    let comps := List.zip [u.a0, u.a1, u.a2, u.a3, u.a4, u.a5, u.a6] UNIT_SYMBOLS
    String.intercalate " " (comps.filterMap (fun p =>
      if p.1 = 0 then none
      else if p.1 = 1 then some p.2
      else some (p.2 ++ "^" ++ intStr p.1)))

/-- `impl fmt::Display for SINumber` (`src/src/si_fmt.rs` lines 29-47).
`is_nan` is constantly false in the exact-value model, and `none` embeds
the `unwrap` panic of `to_reduced` (unreachable: a registry key equals its
entry's unit).  A zero or a scaled absolute value inside `[1e-2, 1e4)` is
printed plainly, anything else in scientific notation. -/
def fmtDisplay (q : Quantity Dec) : Option String :=
  match lookupDU q.unit with
  | some en =>
    match qToReduced q en.ref with
    | .error _ => none
    | .ok value =>
      let vp := getPfx value en.hasPfx
      if ¬ ((Dec.ble ⟨1, -2⟩ vp.1.absD ∧ Dec.blt vp.1.absD ⟨1, 4⟩) ∨ vp.1.m = 0) then
        some (fmtDecExp vp.1 ++ " " ++ vp.2 ++ en.symbol)
      else
        some (fmtDec vp.1 ++ " " ++ vp.2 ++ en.symbol)
  | none =>
    if ¬ ((Dec.ble ⟨1, -2⟩ q.value.absD ∧ Dec.blt q.value.absD ⟨1, 4⟩) ∨ q.value.m = 0) then
      some (fmtDecExp q.value ++ " " ++ fmtUnit q.unit)
    else
      some (fmtDec q.value ++ " " ++ fmtUnit q.unit)

/-- `impl fmt::LowerExp for SINumber` (macro `impl_fmt!`, lines 9-27): the
reduced value in scientific notation and the registry symbol, with no
prefix search and no plain-notation switch. -/
def fmtLowerExp (q : Quantity Dec) : Option String :=
  match lookupDU q.unit with
  | some en =>
    match qToReduced q en.ref with
    | .error _ => none
    | .ok value => some (fmtDecExp value ++ " " ++ en.symbol)
  | none => some (fmtDecExp q.value ++ " " ++ fmtUnit q.unit)

/-- The rational value denoted by a decimal; used only to validate the
`Dec` model against exact arithmetic, never by the embedded code. -/
def Dec.toRat (a : Dec) : ℚ :=
  (a.m : ℚ) * 10 ^ a.e

/- Small sanity examples for the unit algebra (concrete evaluations). -/

example : uNEWTON.mul uMETER = uJOULE := by decide
example : uJOULE.div uSECOND = uWATT := by decide
example : uMETER.root 2 = some (.error .invalidRoot) := by decide
example : (uMETER.powi 2).root 2 = some (.ok uMETER) := by decide
example : uMETER.root 257 = some (.ok uMETER) := by decide
example : uMETER.root 256 = none := by decide

example : fmtDec ⟨981, -2⟩ = "9.81" := by decide
example : fmtDec ⟨981 * 10 ^ 63, -65⟩ = "9.81" := by decide
example : fmtDec ⟨0, 3⟩ = "0" := by decide
example : fmtDec ⟨9810 * 10 ^ 60, -60⟩ = "9810" := by decide
example : fmtDec ⟨-25, -1⟩ = "-2.5" := by decide
example : fmtDecExp ⟨10 ^ 30, -42⟩ = "1e-12" := by decide
example : fmtDecExp ⟨981, -2⟩ = "9.81e0" := by decide
example : Dec.blt ⟨1, -12⟩ ⟨981, 1⟩ = true := by decide
example : Dec.log10Floor ⟨981 * 10 ^ 63, -62⟩ = 3 := by decide

/-! Claim theorems. -/

/-- C1: for quantities x and y with equal units, x + y and x - y keep the
unit and add/subtract the values; with different units both fail fast with
the incompatible-units error reporting the expected (left) and found
(right) dimension vectors — the source panics there, embedded as the error
value; in particular add(5·BAR, 300·KELVIN) fails with exactly that error. -/
theorem claim_C1_add_sub (α : Type) [Add α] [Sub α] (x y : Quantity α) :
    (x.unit = y.unit →
      qAdd x y = .ok ⟨x.value + y.value, x.unit⟩ ∧
      qSub x y = .ok ⟨x.value - y.value, x.unit⟩) ∧
    (x.unit ≠ y.unit →
      qAdd x y = .error (.unitError x.unit y.unit) ∧
      qSub x y = .error (.unitError x.unit y.unit)) ∧
    qAdd (scalarMul ⟨5, 0⟩ BAR) (scalarMul ⟨300, 0⟩ KELVIN) =
      .error (.unitError uPASCAL uKELVIN) := by
  refine ⟨fun h => ⟨?_, ?_⟩, fun h => ⟨?_, ?_⟩, by decide⟩ <;> simp [qAdd, qSub, h]

/-- Witness for C1 at concrete inputs: 3 m + 4 m = 7 m, and m + K fails. -/
theorem claim_C1_add_sub_witness :
    ((scalarMul ⟨3, 0⟩ METER).unit = (scalarMul ⟨4, 0⟩ METER).unit) ∧
    qAdd (scalarMul ⟨3, 0⟩ METER) (scalarMul ⟨4, 0⟩ METER) = .ok ⟨⟨7, 0⟩, uMETER⟩ ∧
    ((scalarMul ⟨3, 0⟩ METER).unit ≠ KELVIN.unit) ∧
    qAdd (scalarMul ⟨3, 0⟩ METER) KELVIN = .error (.unitError uMETER uKELVIN) :=
  ⟨by decide,
   ((claim_C1_add_sub Dec (scalarMul ⟨3, 0⟩ METER) (scalarMul ⟨4, 0⟩ METER)).1
     (by decide)).1.trans (by decide),
   by decide,
   ((claim_C1_add_sub Dec (scalarMul ⟨3, 0⟩ METER) KELVIN).2.1 (by decide)).1.trans
     (by decide)⟩

/-- C2: for all quantities, the unit of a product is the componentwise sum
of the two dimension vectors and the unit of a quotient the componentwise
difference, over all 7 exponents; both operations are total (they return a
quantity, never an error). -/
theorem claim_C2_mul_div_units (α : Type) [Mul α] [Div α] (x y : Quantity α) :
    (qMul x y).unit = x.unit.mul y.unit ∧
    (qDiv x y).unit = x.unit.div y.unit ∧
    (∀ i : Fin 7, (qMul x y).unit.u i = x.unit.u i + y.unit.u i) ∧
    (∀ i : Fin 7, (qDiv x y).unit.u i = x.unit.u i - y.unit.u i) := by
  refine ⟨rfl, rfl, fun i => ?_, fun i => ?_⟩ <;> fin_cases i <;> rfl

/-- C3 counterexample: the claim asserts root(a, n) succeeds only when
every exponent of a is divisible by n, but root([1,0,0,0,0,0,0], 257)
succeeds (257 is truncated to the i8 value 1) although 257 does not divide
the first exponent 1. -/
theorem claim_C3_counterexample :
    uMETER.root 257 = some (.ok uMETER) ∧ uMETER.u 0 = 1 ∧ ¬ ((257 : ℤ) ∣ 1) :=
  ⟨by decide, by decide, by omega⟩

/-- C3 amended: with m the i8 truncation of n, root(a, n) panics when
m = 0 (even though n may be nonzero); otherwise it succeeds exactly when
every one of the 7 exponents of a is divisible by m, the result exponents
being the exact quotients, and fails with the invalid-root error
otherwise. -/
theorem claim_C3_root_characterization (a : SIUnit) (n : ℤ) :
    (wrap8 n = 0 → a.root n = none) ∧
    (wrap8 n ≠ 0 →
      ((∀ i : Fin 7, wrap8 n ∣ a.u i) →
        ∃ c : SIUnit, a.root n = some (.ok c) ∧ ∀ i : Fin 7, c.u i * wrap8 n = a.u i) ∧
      ((∃ i : Fin 7, ¬ wrap8 n ∣ a.u i) → a.root n = some (.error .invalidRoot))) := by
  constructor
  · intro h
    simp only [SIUnit.root]
    rw [if_pos h]
  · intro hm
    constructor
    · intro hdvd
      have h0 := Int.dvd_iff_tmod_eq_zero.mp (hdvd 0)
      have h1 := Int.dvd_iff_tmod_eq_zero.mp (hdvd 1)
      have h2 := Int.dvd_iff_tmod_eq_zero.mp (hdvd 2)
      have h3 := Int.dvd_iff_tmod_eq_zero.mp (hdvd 3)
      have h4 := Int.dvd_iff_tmod_eq_zero.mp (hdvd 4)
      have h5 := Int.dvd_iff_tmod_eq_zero.mp (hdvd 5)
      have h6 := Int.dvd_iff_tmod_eq_zero.mp (hdvd 6)
      refine ⟨⟨(a.a0).tdiv (wrap8 n), (a.a1).tdiv (wrap8 n), (a.a2).tdiv (wrap8 n),
        (a.a3).tdiv (wrap8 n), (a.a4).tdiv (wrap8 n), (a.a5).tdiv (wrap8 n),
        (a.a6).tdiv (wrap8 n)⟩, ?_, ?_⟩
      · simp only [SIUnit.root]
        rw [if_neg hm, if_pos ⟨h0, h1, h2, h3, h4, h5, h6⟩]
      · intro i
        fin_cases i
        · exact Int.tdiv_mul_cancel (hdvd 0)
        · exact Int.tdiv_mul_cancel (hdvd 1)
        · exact Int.tdiv_mul_cancel (hdvd 2)
        · exact Int.tdiv_mul_cancel (hdvd 3)
        · exact Int.tdiv_mul_cancel (hdvd 4)
        · exact Int.tdiv_mul_cancel (hdvd 5)
        · exact Int.tdiv_mul_cancel (hdvd 6)
    · rintro ⟨i, hi⟩
      simp only [SIUnit.root]
      rw [if_neg hm, if_neg]
      intro hc
      apply hi
      obtain ⟨c0, c1, c2, c3, c4, c5, c6⟩ := hc
      fin_cases i <;>
        exact Int.dvd_iff_tmod_eq_zero.mpr (by assumption)

/-- Witness for C3 at concrete inputs: root succeeds on [2,1,-2,...] with
index 1, and fails with the invalid-root error on [1,0,...] with index 2. -/
theorem claim_C3_root_characterization_witness :
    (∃ c : SIUnit, uJOULE.root 1 = some (.ok c) ∧
      ∀ i : Fin 7, c.u i * wrap8 1 = uJOULE.u i) ∧
    uMETER.root 2 = some (.error .invalidRoot) :=
  ⟨((claim_C3_root_characterization uJOULE 1).2 (by decide)).1
     (fun i => ⟨uJOULE.u i, by fin_cases i <;> decide⟩),
   ((claim_C3_root_characterization uMETER 2).2 (by decide)).2
     ⟨0, fun hc => by
       have h2 : wrap8 2 = 2 := by decide
       have h1 : uMETER.u 0 = 1 := by decide
       rw [h2, h1] at hc
       omega⟩⟩

/-- C4 counterexample: at n = 256 (truncated to the i8 value 0) the
power-then-root round trip does not return Ok(a): the root call panics on
a division by zero. -/
theorem claim_C4_counterexample :
    (uMETER.powi 256).root 256 ≠ some (.ok uMETER) := by decide

/-- C4 amended: for every dimension vector a and every n whose i8
truncation is nonzero, root(power(a, n), n) = Ok(a). -/
theorem claim_C4_root_of_power (a : SIUnit) (n : ℤ) (h : wrap8 n ≠ 0) :
    (a.powi n).root n = some (.ok a) := by
  have hm : ∀ x : ℤ, (x * wrap8 n).tmod (wrap8 n) = 0 := fun x => Int.mul_tmod_left x _
  have hd : ∀ x : ℤ, (x * wrap8 n).tdiv (wrap8 n) = x := fun x => Int.mul_tdiv_cancel x h
  simp only [SIUnit.powi, SIUnit.root]
  rw [if_neg h, if_pos ⟨hm _, hm _, hm _, hm _, hm _, hm _, hm _⟩]
  simp [hd]

/-- Witness for C4 at a concrete input: the pascal vector with n = 3. -/
theorem claim_C4_root_of_power_witness :
    wrap8 3 ≠ 0 ∧ (uPASCAL.powi 3).root 3 = some (.ok uPASCAL) :=
  ⟨by decide, claim_C4_root_of_power uPASCAL 3 (by decide)⟩

/-- C5 counterexample: the claim puts temperature at component index 4 and
amount of substance at index 5, but in the code KELVIN does not have
exponent 1 at index 4 (MOL does). -/
theorem claim_C5_counterexample :
    ¬ (KELVIN.unit.u 4 = 1 ∧ MOL.unit.u 5 = 1) := by decide

/-- C5 amended: the canonical component order of the dimension vector is
(length, mass, time, current, amount-of-substance, temperature,
luminous-intensity): MOL has exponent 1 at index 4 and KELVIN at index 5,
each base unit is a standard basis vector, and the raw per-component unit
symbols follow the same order. -/
theorem claim_C5_component_order :
    METER.unit.u 0 = 1 ∧ KILOGRAM.unit.u 1 = 1 ∧ SECOND.unit.u 2 = 1 ∧
    AMPERE.unit.u 3 = 1 ∧ MOL.unit.u 4 = 1 ∧ KELVIN.unit.u 5 = 1 ∧
    CANDELA.unit.u 6 = 1 ∧
    (∀ i : Fin 7, MOL.unit.u i = if i = 4 then 1 else 0) ∧
    (∀ i : Fin 7, KELVIN.unit.u i = if i = 5 then 1 else 0) ∧
    UNIT_SYMBOLS.get? 4 = some "mol" ∧ UNIT_SYMBOLS.get? 5 = some "K" ∧
    UNIT_SYMBOLS = ["m", "kg", "s", "A", "mol", "K", "cd"] := by decide

/-- C6: the three literal formatting scenarios: the quantity
1000·kg · (9.81·m / s²) has the newton dimension vector and is displayed
as "9.81 kN" through the prefix search; 0·K is displayed "0 K" (zero
bypasses the scientific-notation switch); exponential formatting of
PICO·METER gives "1e-12 m". -/
theorem claim_C6_formatting :
    (qMul (scalarMul ⟨1000, 0⟩ KILOGRAM)
      (qDiv (scalarMul ⟨981, -2⟩ METER) (qPowiD SECOND 2))).unit = uNEWTON ∧
    fmtDisplay (qMul (scalarMul ⟨1000, 0⟩ KILOGRAM)
      (qDiv (scalarMul ⟨981, -2⟩ METER) (qPowiD SECOND 2))) = some "9.81 kN" ∧
    fmtDisplay (scalarMul ⟨0, 0⟩ KELVIN) = some "0 K" ∧
    fmtLowerExp (scalarMul dPICO METER) = some "1e-12 m" := by decide

/-- C7 counterexample: for value 2e6 with eligibility bound 1e6 (not
strictly inside the prefix range) the selector does not return the
empty-string prefix: it returns the table's exponent-0 symbol, which is a
single space. -/
theorem claim_C7_counterexample :
    getPfx ⟨2, 6⟩ (some dMEGA) ≠ (⟨2, 6⟩, "") := by decide

/-- C7 amended: with bound None the selector returns the value with the
literal empty string (not a table entry); when |value| is not strictly
between 1e-12 and the bound it returns the value unscaled with the Prefix
Table's exponent-0 symbol, which is a single space " "; otherwise it
returns value / 10^e and the table symbol at e, where e is the largest
multiple of 3 not exceeding floor(log10 |value|). -/
theorem claim_C7_selector (v : Dec) (p : Dec) :
    getPfx v none = (v, "") ∧
    pfxSymbolAt 0 = " " ∧
    (¬ (Dec.blt dPICO v.absD ∧ Dec.blt v.absD p) →
      getPfx v (some p) = (v, " ")) ∧
    ((Dec.blt dPICO v.absD ∧ Dec.blt v.absD p) →
      ∃ e : ℤ, getPfx v (some p) = (v.divPow10 e, pfxSymbolAt e) ∧
        e % 3 = 0 ∧ e ≤ v.absD.log10Floor ∧ v.absD.log10Floor < e + 3) := by
  refine ⟨rfl, rfl, fun h => ?_, fun h => ?_⟩
  · simp only [getPfx]
    rw [if_neg h]
    have h1 : v.divPow10 0 = v := by
      show Dec.mk v.m (v.e - 0) = v
      rw [Int.sub_zero]
    have h2 : pfxSymbolAt 0 = " " := rfl
    rw [h1, h2]
  · refine ⟨(v.absD.log10Floor).ediv 3 * 3, ?_, ?_, ?_, ?_⟩
    · simp only [getPfx]
      rw [if_pos h]
    · have : Int.ediv v.absD.log10Floor 3 = v.absD.log10Floor / 3 := rfl
      omega
    · have : Int.ediv v.absD.log10Floor 3 = v.absD.log10Floor / 3 := rfl
      omega
    · have : Int.ediv v.absD.log10Floor 3 = v.absD.log10Floor / 3 := rfl
      omega

/-- Witness for C7 at concrete inputs: value 5 with bound 1e6 goes through
the scaled branch, value 2e6 with bound 1e6 through the unscaled branch. -/
theorem claim_C7_selector_witness :
    (Dec.blt dPICO (Dec.mk 5 0).absD ∧ Dec.blt (Dec.mk 5 0).absD dMEGA) ∧
    (∃ e : ℤ, getPfx ⟨5, 0⟩ (some dMEGA) = ((Dec.mk 5 0).divPow10 e, pfxSymbolAt e) ∧
      e % 3 = 0 ∧ e ≤ (Dec.mk 5 0).absD.log10Floor ∧
      (Dec.mk 5 0).absD.log10Floor < e + 3) ∧
    getPfx ⟨2, 6⟩ (some dMEGA) = (⟨2, 6⟩, " ") :=
  ⟨by decide,
   (claim_C7_selector ⟨5, 0⟩ dMEGA).2.2.2 (by decide),
   (claim_C7_selector ⟨2, 6⟩ dMEGA).2.2.1 (by decide)⟩

/-- C8: Debye.__pow__ rejects an exponent n exactly when the Rust truncated
remainder n % 2 equals 1, which holds for positive odd n but not for
negative odd n: -1 is odd (its Euclidean remainder mod 2 is 1) yet the
power succeeds, contradicting the DebyePower error's own message that
Debye can only be raised to even powers; the generic powi on quantities is
total and never rejects any exponent. -/
theorem claim_C8_debye_pow :
    ((-1 : ℤ) % 2 = 1) ∧
    ((-1 : ℤ).tmod 2 ≠ 1) ∧
    (debyePow 1 (-1)).isOk = true ∧
    debyePow 1 3 = .error .debyePower ∧
    (∀ (d : ℚ) (n : ℤ), n.tmod 2 = 1 → debyePow d n = .error .debyePower) ∧
    (∀ (x : Quantity Dec) (i : ℤ), (qPowiD x i).unit = x.unit.powi i) := by
  refine ⟨by decide, by decide, by decide, by decide, fun d n h => ?_, fun x i => rfl⟩
  simp [debyePow, h]

/-- Witness for C8 at a concrete input: exponent 3 is rejected. -/
theorem claim_C8_debye_pow_witness :
    ((3 : ℤ).tmod 2 = 1) ∧ debyePow 1 3 = .error .debyePower :=
  ⟨by decide, claim_C8_debye_pow.2.2.2.2.1 1 3 (by decide)⟩

/-- C9: dividing an owned array by 2·METER inverts the unit (m^-1), but
dividing a borrowed array by the same quantity leaves the unit
uninverted (m), so the two operand forms disagree; for multiplication
the two forms agree. -/
theorem claim_C9_borrowed_array_div :
    (arrDivQ (fun _ : Fin 1 => (⟨1, 0⟩ : Dec)) (scalarMul ⟨2, 0⟩ METER)).unit =
      uMETER.powi (-1) ∧
    (arrDivQRef (fun _ : Fin 1 => (⟨1, 0⟩ : Dec)) (scalarMul ⟨2, 0⟩ METER)).unit =
      uMETER ∧
    uMETER.powi (-1) ≠ uMETER ∧
    (arrMulQ (fun _ : Fin 1 => (⟨1, 0⟩ : Dec)) (scalarMul ⟨2, 0⟩ METER)).unit =
      (arrMulQRef (fun _ : Fin 1 => (⟨1, 0⟩ : Dec)) (scalarMul ⟨2, 0⟩ METER)).unit := by
  exact ⟨rfl, rfl, by decide, rfl⟩

/-- C10: try_set with a unit-mismatched scalar returns the unit error
naming expected and found units and leaves the array quantity (values and
unit) completely unchanged; with matching units it returns Ok and writes
exactly the indexed element. -/
theorem claim_C10_try_set {n : ℕ} {α : Type} (a : Quantity (Fin n → α))
    (i : Fin n) (s : Quantity α) :
    (a.unit ≠ s.unit →
      qTrySet a i s = (a, .error (.unitError a.unit s.unit))) ∧
    (a.unit = s.unit →
      (qTrySet a i s).2 = .ok () ∧
      (qTrySet a i s).1.unit = a.unit ∧
      (qTrySet a i s).1.value i = s.value ∧
      ∀ j : Fin n, j ≠ i → (qTrySet a i s).1.value j = a.value j) := by
  constructor
  · intro h
    have hq : ¬ (qHasUnit a s = true) := by simp [qHasUnit, h]
    simp only [qTrySet]
    rw [if_neg hq]
  · intro h
    have hq : qHasUnit a s = true := by simp [qHasUnit, h]
    simp only [qTrySet]
    rw [if_pos hq]
    exact ⟨rfl, rfl, Function.update_same i s.value a.value,
      fun j hj => Function.update_noteq hj s.value a.value⟩

/-- Witness for C10 at concrete inputs: a two-element meter array rejects a
kelvin scalar unchanged and accepts a meter scalar at index 0. -/
theorem claim_C10_try_set_witness :
    ((⟨![10, 20], uMETER⟩ : Quantity (Fin 2 → ℤ)).unit ≠
      (⟨99, uKELVIN⟩ : Quantity ℤ).unit) ∧
    qTrySet (⟨![10, 20], uMETER⟩ : Quantity (Fin 2 → ℤ)) 0 ⟨99, uKELVIN⟩ =
      (⟨![10, 20], uMETER⟩, .error (.unitError uMETER uKELVIN)) ∧
    (qTrySet (⟨![10, 20], uMETER⟩ : Quantity (Fin 2 → ℤ)) 0 ⟨99, uMETER⟩).1.value 0 = 99 ∧
    (qTrySet (⟨![10, 20], uMETER⟩ : Quantity (Fin 2 → ℤ)) 0 ⟨99, uMETER⟩).1.value 1 = 20 :=
  ⟨by decide,
   (claim_C10_try_set ⟨![10, 20], uMETER⟩ 0 ⟨99, uKELVIN⟩).1 (by decide),
   ((claim_C10_try_set ⟨![10, 20], uMETER⟩ 0 ⟨99, uMETER⟩).2 rfl).2.2.1,
   (((claim_C10_try_set ⟨![10, 20], uMETER⟩ 0 ⟨99, uMETER⟩).2 rfl).2.2.2 1
     (by decide)).trans (by decide)⟩

/-! Validation of the decimal value model: the arithmetic and the
comparison used by the embedded formatting code agree with exact rational
arithmetic, the `i8` truncation is the two's-complement cast, and
`log10Floor` is the floored decimal logarithm. -/

theorem wrap8_spec (i : ℤ) :
    -128 ≤ wrap8 i ∧ wrap8 i ≤ 127 ∧ (wrap8 i - i) % 256 = 0 := by
  unfold wrap8
  omega

theorem pow_split_ten (x m : ℤ) (h : m ≤ x) :
    (10 : ℚ) ^ x = (10 : ℚ) ^ (x - m).toNat * (10 : ℚ) ^ m := by
  rw [← zpow_natCast (10 : ℚ) (x - m).toNat, ← zpow_add₀ (by norm_num : (10 : ℚ) ≠ 0)]
  congr 1
  omega

theorem dec_mulD_toRat (a b : Dec) : (a.mulD b).toRat = a.toRat * b.toRat := by
  unfold Dec.mulD Dec.toRat
  push_cast
  rw [zpow_add₀ (by norm_num : (10 : ℚ) ≠ 0)]
  ring

theorem dec_addD_toRat (a b : Dec) : (a.addD b).toRat = a.toRat + b.toRat := by
  unfold Dec.addD Dec.al Dec.toRat
  push_cast
  rw [pow_split_ten a.e (min a.e b.e) (min_le_left _ _),
      pow_split_ten b.e (min a.e b.e) (min_le_right _ _)]
  ring

theorem dec_subD_toRat (a b : Dec) : (a.subD b).toRat = a.toRat - b.toRat := by
  unfold Dec.subD Dec.al Dec.toRat
  push_cast
  rw [pow_split_ten a.e (min a.e b.e) (min_le_left _ _),
      pow_split_ten b.e (min a.e b.e) (min_le_right _ _)]
  ring

theorem dec_divPow10_toRat (a : Dec) (k : ℤ) :
    (a.divPow10 k).toRat = a.toRat / (10 : ℚ) ^ k := by
  unfold Dec.divPow10 Dec.toRat
  rw [zpow_sub₀ (by norm_num : (10 : ℚ) ≠ 0)]
  ring

theorem dec_absD_toRat (a : Dec) : a.absD.toRat = |a.toRat| := by
  unfold Dec.absD Dec.toRat
  rw [abs_mul, abs_of_pos (zpow_pos (by norm_num : (0 : ℚ) < 10) a.e)]
  push_cast
  ring

theorem dec_blt_iff (a b : Dec) : Dec.blt a b = true ↔ a.toRat < b.toRat := by
  unfold Dec.blt Dec.al
  rw [decide_eq_true_eq]
  have hm : (10 : ℚ) ^ min a.e b.e > 0 := zpow_pos (by norm_num) _
  constructor
  · intro h
    have h' : ((a.m * 10 ^ (a.e - min a.e b.e).toNat : ℤ) : ℚ) <
        ((b.m * 10 ^ (b.e - min a.e b.e).toNat : ℤ) : ℚ) := by exact_mod_cast h
    have := mul_lt_mul_of_pos_right h' hm
    unfold Dec.toRat
    rw [pow_split_ten a.e (min a.e b.e) (min_le_left _ _),
        pow_split_ten b.e (min a.e b.e) (min_le_right _ _)]
    push_cast at this ⊢
    linarith
  · intro h
    unfold Dec.toRat at h
    rw [pow_split_ten a.e (min a.e b.e) (min_le_left _ _),
        pow_split_ten b.e (min a.e b.e) (min_le_right _ _)] at h
    have h' : ((a.m * 10 ^ (a.e - min a.e b.e).toNat : ℤ) : ℚ) <
        ((b.m * 10 ^ (b.e - min a.e b.e).toNat : ℤ) : ℚ) := by
      push_cast at h ⊢
      nlinarith [hm]
    exact_mod_cast h'

theorem dec_ble_iff (a b : Dec) : Dec.ble a b = true ↔ a.toRat ≤ b.toRat := by
  unfold Dec.ble Dec.al
  rw [decide_eq_true_eq]
  have hm : (10 : ℚ) ^ min a.e b.e > 0 := zpow_pos (by norm_num) _
  constructor
  · intro h
    have h' : ((a.m * 10 ^ (a.e - min a.e b.e).toNat : ℤ) : ℚ) ≤
        ((b.m * 10 ^ (b.e - min a.e b.e).toNat : ℤ) : ℚ) := by exact_mod_cast h
    have := mul_le_mul_of_nonneg_right h' hm.le
    unfold Dec.toRat
    rw [pow_split_ten a.e (min a.e b.e) (min_le_left _ _),
        pow_split_ten b.e (min a.e b.e) (min_le_right _ _)]
    push_cast at this ⊢
    linarith
  · intro h
    unfold Dec.toRat at h
    rw [pow_split_ten a.e (min a.e b.e) (min_le_left _ _),
        pow_split_ten b.e (min a.e b.e) (min_le_right _ _)] at h
    have h' : ((a.m * 10 ^ (a.e - min a.e b.e).toNat : ℤ) : ℚ) ≤
        ((b.m * 10 ^ (b.e - min a.e b.e).toNat : ℤ) : ℚ) := by
      push_cast at h ⊢
      nlinarith [hm]
    exact_mod_cast h'

theorem natDigitsRev_lt (fuel : ℕ) : ∀ n : ℕ, n < 10 ^ fuel →
    n < 10 ^ (natDigitsRev fuel n).length := by
  induction fuel with
  | zero => intro n h; simpa [natDigitsRev] using h
  | succ fuel ih =>
    intro n h
    by_cases h0 : n = 0
    · simp [natDigitsRev, h0]
    · have hdiv : n / 10 < 10 ^ fuel := by
        rw [pow_succ] at h
        omega
      have hrec := ih (n / 10) hdiv
      simp only [natDigitsRev, if_neg h0, List.length_cons]
      rw [pow_succ]
      omega

theorem natDigitsRev_le (fuel : ℕ) : ∀ n : ℕ, 0 < n → n < 10 ^ fuel →
    10 ^ (natDigitsRev fuel n).length ≤ 10 * n := by
  induction fuel with
  | zero => intro n h0 h; omega
  | succ fuel ih =>
    intro n h0 h
    have hne : n ≠ 0 := h0.ne'
    simp only [natDigitsRev, if_neg hne, List.length_cons]
    by_cases hsmall : n / 10 = 0
    · have hz : natDigitsRev fuel (n / 10) = [] := by
        cases fuel <;> simp [natDigitsRev, hsmall]
      rw [hz]
      simpa using by omega
    · have hdiv : n / 10 < 10 ^ fuel := by
        rw [pow_succ] at h
        omega
      have hrec := ih (n / 10) (Nat.pos_of_ne_zero hsmall) hdiv
      rw [pow_succ]
      omega

theorem natDigits_pos_length (n : ℕ) (h0 : 0 < n) (hb : n < 10 ^ 200) :
    1 ≤ (natDigits n).length := by
  unfold natDigits
  rw [List.length_reverse]
  by_contra hc
  have hz : (natDigitsRev 200 n).length = 0 := by omega
  have := natDigitsRev_lt 200 n hb
  rw [hz] at this
  omega

theorem dec_log10Floor_spec (a : Dec) (h : a.m ≠ 0) (hb : a.m.natAbs < 10 ^ 200) :
    (10 : ℚ) ^ a.log10Floor ≤ |a.toRat| ∧ |a.toRat| < (10 : ℚ) ^ (a.log10Floor + 1) := by
  have h0 : 0 < a.m.natAbs := Int.natAbs_pos.mpr h
  have hlen : 1 ≤ (natDigits a.m.natAbs).length := natDigits_pos_length _ h0 hb
  have hup : a.m.natAbs < 10 ^ (natDigits a.m.natAbs).length := by
    unfold natDigits
    rw [List.length_reverse]
    exact natDigitsRev_lt 200 a.m.natAbs hb
  have hlo : 10 ^ (natDigits a.m.natAbs).length ≤ 10 * a.m.natAbs := by
    unfold natDigits
    rw [List.length_reverse]
    exact natDigitsRev_le 200 a.m.natAbs h0 hb
  have habs : |a.toRat| = (a.m.natAbs : ℚ) * (10 : ℚ) ^ a.e := by
    rw [← dec_absD_toRat]
    unfold Dec.absD Dec.toRat
    push_cast [abs_of_nonneg, Int.cast_natAbs]
    ring
  have hepos : (0 : ℚ) < (10 : ℚ) ^ a.e := zpow_pos (by norm_num) _
  set L := (natDigits a.m.natAbs).length with hL
  have hlog : a.log10Floor = (L : ℤ) - 1 + a.e := rfl
  constructor
  · rw [habs, hlog]
    have hq : (10 : ℚ) ^ ((L : ℤ) - 1) ≤ (a.m.natAbs : ℚ) := by
      have h10 : (10 : ℚ) ^ ((L : ℤ) - 1) = (10 : ℚ) ^ (L - 1 : ℕ) := by
        rw [← zpow_natCast]
        congr 1
        omega
      rw [h10]
      have : 10 ^ (L - 1 : ℕ) * 10 ≤ 10 * a.m.natAbs := by
        calc 10 ^ (L - 1 : ℕ) * 10 = 10 ^ L := by
              rw [← pow_succ]
              congr 1
              omega
          _ ≤ 10 * a.m.natAbs := hlo
      exact_mod_cast by omega
    calc (10 : ℚ) ^ ((L : ℤ) - 1 + a.e) = (10 : ℚ) ^ ((L : ℤ) - 1) * (10 : ℚ) ^ a.e := by
          rw [zpow_add₀ (by norm_num : (10 : ℚ) ≠ 0)]
      _ ≤ (a.m.natAbs : ℚ) * (10 : ℚ) ^ a.e := by
          exact mul_le_mul_of_nonneg_right hq hepos.le
  · rw [habs, hlog]
    have hq : (a.m.natAbs : ℚ) < (10 : ℚ) ^ (L : ℤ) := by
      have hc : (a.m.natAbs : ℚ) < (10 : ℚ) ^ L := by exact_mod_cast hup
      rwa [← zpow_natCast (10 : ℚ) L] at hc
    calc (a.m.natAbs : ℚ) * (10 : ℚ) ^ a.e < (10 : ℚ) ^ (L : ℤ) * (10 : ℚ) ^ a.e :=
          mul_lt_mul_of_pos_right hq hepos
      _ = (10 : ℚ) ^ ((L : ℤ) - 1 + a.e + 1) := by
          rw [← zpow_add₀ (by norm_num : (10 : ℚ) ≠ 0)]
          congr 1
          omega
